import Mathlib

/-!
Shallow embedding of the page-intake pipeline of the `spacetime-crawler4py`
repository: the URL filter and trap detection of `src/scraper.py`, the
information-value gate and SimHash similarity measure of the content analyzer,
and the frontier / rate limiter of `src/crawler/frontier.py`.

Python dictionaries are modelled as insertion-ordered association lists,
`defaultdict` reads as lookups that insert the default value on a miss (the
observable behaviour of `defaultdict.__getitem__`), machine floats of the
timing table as rationals, and Python exceptions as explicit `Except` /
`Option` error components.
-/

set_option autoImplicit false

namespace Crawler

/-- Python exception kinds that the embedded code can raise or catch. -/
inductive PyErr where
  | valueError
  | typeError
deriving DecidableEq, Repr

/-- Return values of a Python function that can fall off its end: either an
explicit boolean or the implicit `None` of a missing `return` statement. -/
inductive PyRet where
  | none
  | bool (b : Bool)
deriving DecidableEq, Repr

/-- Python truthiness of a `PyRet` value: `None` is falsy. -/
def pyTruthy : PyRet → Bool
  | .none => false
  | .bool b => b

/-- Split a character list at the first occurrence of `sep`: returns the part
before it and, when `sep` occurs, the part after it (models `str.split(sep, 1)`
and `str.partition`). -/
def splitFirst (sep : Char) : List Char → List Char × Option (List Char)
  | [] => ([], none)
  | c :: cs =>
    if c = sep then ([], some cs)
    else
      let r := splitFirst sep cs
      (c :: r.1, r.2)

/-- Everything after the last occurrence of `sep`; the whole list when `sep`
does not occur (models the third component of `str.rpartition(sep)` merged
with its no-separator case, which is how `urllib` strips URL userinfo). -/
def afterLast (sep : Char) (l : List Char) : List Char :=
  (l.reverse.takeWhile (fun c => c != sep)).reverse

/-- Character test of `urllib.parse.scheme_chars`: ASCII letters, digits and
the three characters plus, minus, dot. -/
def schemeChar (c : Char) : Bool :=
  c.isAlpha || c.isDigit || c == '+' || c == '-' || c == '.'

/-- ASCII-lowercase a string (models `str.lower()` on the ASCII URLs the
claims quantify over). -/
def lowerStr (s : String) : String :=
  String.mk (s.data.map Char.toLower)

/-- Boolean string prefix test on the underlying character lists. -/
def strStartsWith (s t : String) : Bool :=
  t.data.isPrefixOf s.data

/-- Boolean string suffix test on the underlying character lists. -/
def strEndsWith (s t : String) : Bool :=
  t.data.isSuffixOf s.data

/-- Result of `urllib.parse.urlparse` restricted to the components the
repository reads: `scheme`, `netloc`, `path` and `query`. The `params`
component (a `;` suffix of the last path segment) is left inside `path`
and the fragment is discarded, faithful for every URL without `;` —
the repository never reads either component except to drop the fragment. -/
structure ParsedUrl where
  scheme : String
  netloc : String
  path : String
  query : String
deriving DecidableEq, Repr

/-- Model of `urllib.parse.urlparse`: detect a scheme (lowercased) before the
first colon when its characters are legal, extract the netloc after `//` up to
the next `/`, `?` or `#`, raise `ValueError` on a netloc with unbalanced
square brackets (CPython's "Invalid IPv6 URL" check, the error `is_valid`'s
`except TypeError` does not catch), then strip the fragment after `#` and
split the query after `?`. -/
def pyUrlparse (url : String) : Except PyErr ParsedUrl :=
  let cs := url.data
  let sp := splitFirst ':' cs
  let schemeRest : List Char × List Char :=
    match sp.2 with
    | some r =>
      match sp.1 with
      | [] => ([], cs)
      | c :: tl =>
        if c.isAlpha && (c :: tl).all schemeChar
        then ((c :: tl).map Char.toLower, r)
        else ([], cs)
    | none => ([], cs)
  let scheme := schemeRest.1
  let rest := schemeRest.2
  match rest with
  | '/' :: '/' :: tl =>
    let netloc := tl.takeWhile (fun c => c != '/' && c != '?' && c != '#')
    let rest2 := tl.dropWhile (fun c => c != '/' && c != '?' && c != '#')
    if (netloc.contains '[') ≠ (netloc.contains ']') then
      .error .valueError
    else
      let beforeHash := (splitFirst '#' rest2).1
      let pq := splitFirst '?' beforeHash
      .ok ⟨String.mk scheme, String.mk netloc, String.mk pq.1, String.mk (pq.2.getD [])⟩
  | _ =>
    let beforeHash := (splitFirst '#' rest).1
    let pq := splitFirst '?' beforeHash
    .ok ⟨String.mk scheme, "", String.mk pq.1, String.mk (pq.2.getD [])⟩

/-- Model of the `ParseResult.hostname` property: drop userinfo up to the last
`@`, take the bracketed host when a `[` is present and otherwise the part
before the first `:`, lowercase it, and return `none` for an empty host. -/
def hostnameOf (p : ParsedUrl) : Option String :=
  let hostinfo := afterLast '@' p.netloc.data
  let sp := splitFirst '[' hostinfo
  let host :=
    match sp.2 with
    | some bracketed => (splitFirst ']' bracketed).1
    | none => (splitFirst ':' hostinfo).1
  let host := host.map Char.toLower
  if host = [] then none else some (String.mk host)

/-- Value of a key in an insertion-ordered association list, `none` when
absent (models `dict.get` / the `in` test). -/
def dictLookup {α : Type} (d : List (String × α)) (k : String) : Option α :=
  d.lookup k

/-- Write a key in an insertion-ordered association list: update in place when
present, append when absent (models `dict.__setitem__`). -/
def dictSet {α : Type} (d : List (String × α)) (k : String) (v : α) : List (String × α) :=
  if (dictLookup d k).isSome then
    d.map (fun kv => if kv.1 = k then (k, v) else kv)
  else
    d ++ [(k, v)]

/-- Read of `defaultdict(int)[k]`: the stored value when present, otherwise 0
together with the insertion of the key that CPython performs on the miss. -/
def ddGet (d : List (String × Nat)) (k : String) : Nat × List (String × Nat) :=
  match dictLookup d k with
  | some v => (v, d)
  | none => (0, d ++ [(k, 0)])

/-- Value a `defaultdict(int)` associates with a key, ignoring the insertion
side effect. -/
def lookup0 (d : List (String × Nat)) (k : String) : Nat :=
  (dictLookup d k).getD 0

/-- Model of the visit accounting `self.site_counts[site] += 1` that
`Scraper._get_parsed_url` performs on a `defaultdict(int)`: a defaulted read
followed by a write of the incremented value. -/
def visit_site (d : List (String × Nat)) (k : String) : List (String × Nat) :=
  let r := ddGet d k
  dictSet r.2 k (r.1 + 1)

/-- The `Scraper._allowed_domains` class attribute of `src/scraper.py`. -/
def allowed_domains : List String :=
  ["ics.uci.edu", "cs.uci.edu", "informatics.uci.edu", "stat.uci.edu"]

/-- The `Scraper._good_params` class attribute of `src/scraper.py`, element
for element. The source writes `"attachment_id" "archive_year"` with no comma
between the two literals; Python concatenates adjacent string literals, so the
set contains the single element `"attachment_idarchive_year"` (and `"limit"`
is listed twice, which a set collapses). -/
def good_params : List String :=
  [ "p", "page", "paged", "baldiPage", "page_id", "id", "seminar_id",
    "attachment_idarchive_year", "year", "limit", "people", "start",
    "offset", "limit", "idx", "s", "search", "q", "query", "eventDisplay",
    "tribe-bar-date", "redirect_to" ]

/-- Alternatives of the extension-blacklist regular expression in `is_valid`
(`src/scraper.py` lines 353-366), with `jpe?g` expanded to `jpg`/`jpeg` and
`tiff?` to `tif`/`tiff`. -/
def bad_extensions : List String :=
  [ "css", "js", "bmp", "gif", "jpg", "jpeg", "ico",
    "png", "tif", "tiff", "mid", "mp2", "mp3", "mp4",
    "wav", "avi", "mov", "mpeg", "ram", "m4v", "mkv", "ogg", "ogv", "pdf",
    "ps", "eps", "tex", "ppt", "pptx", "doc", "docx", "xls", "xlsx", "names",
    "data", "dat", "exe", "bz2", "tar", "msi", "bin", "7z", "psd", "dmg", "iso",
    "epub", "dll", "cnf", "tgz", "sha1",
    "thmx", "mso", "arff", "rtf", "jar", "csv",
    "rm", "smil", "wmv", "swf", "wma", "zip", "rar", "gz",
    "ppsx", "pps", "txt", "bib", "sql", "xml", "pov", "tsv", "mat", "in", "out", "scm", "db",
    "1_manual", "2_manual", "mpg", "img", "svg", "webp", "heic", "lif", "hqx", "fig",
    "lsp", "java", "war", "c", "h", "cpp", "hpp", "cp", "sh", "ss", "pl", "rss", "ff",
    "rle", "Z", "shar", "ova", "edelsbrunner", "class", "prn",
    "conf", "cls", "can", "odp", "results", "sas", "odc", "ma", "pd", "mol", "grm", "nb" ]

/-- The extension test of `is_valid`: `re.match(r".*\.(…)$", path.lower())`
matches exactly when the lowercased path ends in a dot followed by one of the
alternatives. -/
def has_bad_extension (path : String) : Bool :=
  let p := lowerStr path
  bad_extensions.any (fun e => strEndsWith p ("." ++ e))

/-- Mutable attributes of the module-level `Scraper` instance `s` that the URL
filter and the statistics of `scrape_page` touch, as initialized by
`Scraper.__init__`. -/
structure ScraperState where
  visited_urls : List String
  subdomain_counts : List (String × Nat)
  token_counts : List (String × Nat)
  max_page_url : String
  max_page_len : Nat
  site_counts : List (String × Nat)
deriving DecidableEq, Repr

/-- The state of the freshly constructed module-level `Scraper()` instance. -/
def scraper_init : ScraperState :=
  { visited_urls := []
    subdomain_counts := []
    token_counts := []
    max_page_url := ""
    max_page_len := 0
    site_counts := [] }

/-- Model of `Scraper._is_valid_domain`: hostname equal to or ending in a dot
followed by an allowed domain, plus the `today.uci.edu` path-restricted
special case. -/
def is_valid_domain (p : ParsedUrl) : Bool :=
  match hostnameOf p with
  | none => false
  | some domain =>
    if allowed_domains.any (fun ad => domain == ad || strEndsWith domain ("." ++ ad)) then
      true
    else
      domain == "today.uci.edu" && strStartsWith p.path "/department/information_computer_sciences/"

/-- Model of `Scraper._is_trap`: reads `site_counts[netloc + path]` through
the `defaultdict`, so the read returns the pair of the trap verdict and the
possibly enlarged `site_counts` mapping. -/
def is_trap (st : ScraperState) (p : ParsedUrl) : Bool × ScraperState :=
  let site := p.netloc ++ p.path
  let r := ddGet st.site_counts site
  (r.1 > 5, { st with site_counts := r.2 })

/-- Model of the module-level `is_valid` of `src/scraper.py`: scheme check,
extension-blacklist check, domain check, then the trap check (short-circuit
`or`, so the trap read happens only when the domain is valid). The
`try`/`except TypeError` catches only `TypeError`, so a `ValueError` raised by
`urlparse` escapes as an error result. The function returns its verdict
together with the state of the module-level scraper after the call. -/
def is_valid (st : ScraperState) (url : String) : Except PyErr Bool × ScraperState :=
  match pyUrlparse url with
  | .error e => (.error e, st)
  | .ok p =>
    if ¬ (p.scheme = "http" ∨ p.scheme = "https") then (.ok false, st)
    else if has_bad_extension p.path then (.ok false, st)
    else if ¬ (is_valid_domain p = true) then (.ok false, st)
    else
      let t := is_trap st p
      if t.1 then (.ok false, t.2) else (.ok true, t.2)

/-- Model of `Scraper._has_high_information_value`. The source function only
uses `len(html_content)`, modelled here by the length `html_size`. It returns
`False` when one of its three rejection conditions fires and otherwise falls
off the end of the function body, which in Python returns `None`. -/
def has_high_information_value (html_size num_info_tokens : Nat) : PyRet :=
  let MAX_HTML_SIZE := 500000
  let MIN_TOKENS := 50
  let html_too_large := html_size > MAX_HTML_SIZE
  let not_enough_tokens := num_info_tokens < MIN_TOKENS
  let not_enough_tokens_for_large_html :=
    html_size > MAX_HTML_SIZE - 200000 && num_info_tokens < MIN_TOKENS * 2
  if html_too_large || not_enough_tokens || not_enough_tokens_for_large_html then
    .bool false
  else
    .none

/-- The information-value gate of `scrape_page` (`src/scraper.py` line 106):
`if not self._has_high_information_value(html_content, num_info_tokens):
return []` — the page is rejected exactly when the call's result is falsy. -/
def gate_rejects (html_size num_info_tokens : Nat) : Bool :=
  ! pyTruthy (has_high_information_value html_size num_info_tokens)

/-- A 64-bit SimHash fingerprint: the bit vector `np.where(vec_v >= 0, 1, 0)`
of `Scraper._is_similar`. -/
def Fingerprint : Type := Fin 64 → Bool

/-- The `same_bits` count of `Scraper._is_similar`: the number of bit
positions on which the two fingerprints agree (`np.sum(vec_v == fingerprint)`). -/
def same_bits (a b : Fingerprint) : Nat :=
  (Finset.univ.filter (fun i => a i = b i)).card

/-- The similarity measure of `Scraper._is_similar`: agreeing bit positions
divided by the fingerprint width 64. -/
def similarity (a b : Fingerprint) : ℚ :=
  (same_bits a b : ℚ) / 64

/-- The near-duplicate threshold `THRESHOLD = 0.80` of `Scraper._is_similar`. -/
def THRESHOLD : ℚ := 0.80

/-- One chunk of `urllib.parse.parse_qsl` with its default options: a chunk
without `=` or with an empty value is skipped, otherwise it yields the pair
before/after the first `=` (percent-decoding and plus-decoding are omitted;
no URL the development evaluates contains `%` or `+`). -/
def qsChunkPair (chunk : List Char) : Option (String × String) :=
  match splitFirst '=' chunk with
  | (_, none) => none
  | (k, some v) => if v = [] then none else some (String.mk k, String.mk v)

/-- Split a query string on `&` into its chunks. -/
def qsChunks : List Char → List (List Char)
  | [] => [[]]
  | c :: cs =>
    let r := qsChunks cs
    if c = '&' then [] :: r
    else
      match r with
      | [] => [[c]]
      | h :: t => (c :: h) :: t

/-- Group one key/value pair into the `parse_qs` result dictionary: append the
value to an existing key's list, otherwise append a new key at the end
(Python dictionaries preserve first-occurrence key order). -/
def qsInsert (acc : List (String × List String)) (kv : String × String) :
    List (String × List String) :=
  if (acc.lookup kv.1).isSome then
    acc.map (fun e => if e.1 == kv.1 then (e.1, e.2 ++ [kv.2]) else e)
  else
    acc ++ [(kv.1, [kv.2])]

/-- Model of `urllib.parse.parse_qs` with its default options. -/
def parseQs (q : String) : List (String × List String) :=
  ((qsChunks q.data).filterMap qsChunkPair).foldl qsInsert []

/-- Model of `urllib.parse.urlencode(queries, doseq=True)`: one `k=v` chunk
per value, keys in dictionary order, joined by `&` (percent-encoding omitted;
no URL the development evaluates needs it). -/
def urlencode (queries : List (String × List String)) : String :=
  String.intercalate "&" (queries.flatMap (fun kv => kv.2.map (fun v => kv.1 ++ "=" ++ v)))

/-- Model of `urllib.parse.urlunparse` on a five-tuple whose `params`
component is empty: the reassembly steps of CPython's `urlunsplit`. -/
def urlunsplit (scheme netloc path query fragment : String) : String :=
  let url :=
    if netloc ≠ "" ∨ (path ≠ "" ∧ strStartsWith path "//") then
      "//" ++ netloc ++ (if path ≠ "" ∧ ¬ (strStartsWith path "/" = true) then "/" ++ path else path)
    else path
  let url := if scheme ≠ "" then scheme ++ ":" ++ url else url
  let url := if query ≠ "" then url ++ "?" ++ query else url
  if fragment ≠ "" then url ++ "#" ++ fragment else url

/-- The name normalization of `Scraper._remove_query_params`:
`param.split('[')[0]`, everything before the first `[`. -/
def paramKey (s : String) : String :=
  String.mk (s.data.takeWhile (fun c => c != '['))

/-- The query-filtering core of `Scraper._remove_query_params`: keep exactly
the parameters whose normalized name is in `good_params` (building
`params_to_remove` and deleting afterwards, as the source does, keeps the
remaining keys in the same order as filtering does) and re-encode. -/
def filterQuery (q : String) : String :=
  urlencode ((parseQs q).filter (fun kv => good_params.contains (paramKey kv.1)))

/-- Model of `Scraper._remove_query_params`: parse the URL, drop every query
parameter not in the known-good set, re-encode, and reassemble without the
fragment. A `ValueError` from `urlparse` propagates. -/
def remove_query_params (url : String) : Except PyErr String :=
  match pyUrlparse url with
  | .error e => .error e
  | .ok p => .ok (urlunsplit p.scheme p.netloc p.path (filterQuery p.query) "")

/-- Modelled from the spec: `utils.normalize` from the `utils` package, which
is not under `src/`. Section 6 of the spec defines URL normalization as
"lowercased scheme + host, fragment removed, query parameters not in the
known-good set stripped, parameters preserved in dictionary-iteration order,
no trailing empty query"; modelled with the same parser and query filter as
the scraper (the parser already lowercases the scheme), returning unparsable
input unchanged. -/
def normalize (url : String) : String :=
  match pyUrlparse url with
  | .error _ => url
  | .ok p => urlunsplit p.scheme (lowerStr p.netloc) p.path (filterQuery p.query) ""

/-- Modelled from the spec: `utils.get_urlhash` from the `utils` package,
which is not under `src/`. Section 3 of the spec describes it as "a stable
fingerprint of the URL (hex digest of a cryptographic hash over the
normalized form)", keying the persistent map uniquely; modelled as the string
itself, a stable fingerprint that is collision-free as the spec assumes. -/
def get_urlhash (url : String) : String := url

/-- Mutable attributes of `Frontier` (`src/crawler/frontier.py`) that its
queue, persistence and rate-limiting operations touch: the persistent
`shelve` map keyed by URL fingerprint, the in-memory FIFO
`to_be_downloaded`, and the `last_request_time` timing table
(a `defaultdict(float)`, modelled with rational timestamps). -/
structure FrontierState where
  save : List (String × (String × Bool))
  to_be_downloaded : List String
  last_request_time : List (String × ℚ)
deriving DecidableEq, Repr

/-- A frontier with empty save file, empty FIFO and empty timing table. -/
def frontier_init : FrontierState :=
  { save := [], to_be_downloaded := [], last_request_time := [] }

/-- Value a `defaultdict(float)` timing table associates with a host. -/
def lookupQ (d : List (String × ℚ)) (k : String) : ℚ :=
  (dictLookup d k).getD 0

/-- Model of `Frontier.add_url`: normalize, fingerprint, and under the lock
insert `(url, False)`, flush, and enqueue only when the fingerprint is not
yet a key of the persistent map. -/
def add_url (st : FrontierState) (url : String) : FrontierState :=
  let url := normalize url
  let urlhash := get_urlhash url
  if (dictLookup st.save urlhash).isSome then st
  else
    { st with
      save := st.save ++ [(urlhash, (url, false))]
      to_be_downloaded := st.to_be_downloaded ++ [url] }

/-- The frontier dedup invariant of the spec, section 3: the FIFO holds no
URL twice, the persistent map holds no fingerprint twice, and every FIFO
entry's fingerprint is a key of the persistent map. -/
def frontier_inv (st : FrontierState) : Prop :=
  st.to_be_downloaded.Nodup
  ∧ (st.save.map Prod.fst).Nodup
  ∧ ∀ q ∈ st.to_be_downloaded, (dictLookup st.save (get_urlhash q)).isSome = true

/-- Model of `Frontier._get_domain`: `urlparse(url).hostname`, propagating a
parse error. -/
def get_domain (url : String) : Except PyErr (Option String) :=
  match pyUrlparse url with
  | .error e => .error e
  | .ok p => .ok (hostnameOf p)

/-- Model of `Frontier.mark_url_complete` at wallclock time `now`: write
`(url, True)` under the fingerprint of the (unnormalized) URL and flush; then
set `last_request_time[hostname]` to `now` when the URL has a hostname. The
returned error component records an exception escaping from `_get_domain`
after the persistent write already happened. -/
def mark_url_complete (st : FrontierState) (url : String) (now : ℚ) :
    FrontierState × Option PyErr :=
  let st1 := { st with save := dictSet st.save (get_urlhash url) (url, true) }
  match get_domain url with
  | .error e => (st1, some e)
  | .ok none => (st1, none)
  | .ok (some d) =>
    ({ st1 with last_request_time := dictSet st1.last_request_time d now }, none)

/-- The minimum per-host request interval of `wait_for_request`: 500 ms. -/
def MIN_INTERVAL : ℚ := 1 / 2

/-- Model of `Frontier.wait_for_request` at wallclock time `now`: when the
URL has a hostname, read the host's last request timestamp, sleep for the
remainder of the 500 ms interval when less than that has elapsed, and store
the post-sleep time (modelled as `now` plus the exact sleep duration) in the
timing table. Returns the slept duration, the new state, and any exception
escaping from `_get_domain`. -/
def wait_for_request (st : FrontierState) (url : String) (now : ℚ) :
    (ℚ × FrontierState) × Option PyErr :=
  match get_domain url with
  | .error e => ((0, st), some e)
  | .ok none => ((0, st), none)
  | .ok (some d) =>
    let elapsed := now - lookupQ st.last_request_time d
    let sleepTime := if elapsed < MIN_INTERVAL then MIN_INTERVAL - elapsed else 0
    ((sleepTime,
      { st with last_request_time := dictSet st.last_request_time d (now + sleepTime) }),
     none)

/-- Events of the lock-and-sleep behaviour of `Frontier.wait_for_request`:
acquiring and releasing `self.lock`, sleeping, and the timing-table read and
write. -/
inductive LockEv where
  | acquire
  | release
  | sleepEv (d : ℚ)
  | readTs (host : String)
  | writeTs (host : String)
deriving DecidableEq, Repr

/-- The event trace of one `Frontier.wait_for_request` call, line for line
from the source: `_get_domain` and the early return happen before any lock
activity; then `with self.lock:` encloses the timestamp read, the conditional
sleep for the remainder of the 500 ms interval, and the timestamp write. -/
def wait_for_request_trace (st : FrontierState) (url : String) (now : ℚ) : List LockEv :=
  match get_domain url with
  | .error _ => []
  | .ok none => []
  | .ok (some d) =>
    let elapsed := now - lookupQ st.last_request_time d
    [LockEv.acquire, LockEv.readTs d]
      ++ (if elapsed < MIN_INTERVAL then [LockEv.sleepEv (MIN_INTERVAL - elapsed)] else [])
      ++ [LockEv.writeTs d, LockEv.release]

/-- Lock depths at which the sleep events of a trace occur, starting from the
given depth: `acquire` increments, `release` decrements, and each sleep event
contributes the current depth. -/
def sleepDepthsFrom : Nat → List LockEv → List Nat
  | _, [] => []
  | depth, LockEv.acquire :: tl => sleepDepthsFrom (depth + 1) tl
  | depth, LockEv.release :: tl => sleepDepthsFrom (depth - 1) tl
  | depth, LockEv.sleepEv _ :: tl => depth :: sleepDepthsFrom depth tl
  | depth, LockEv.readTs _ :: tl => sleepDepthsFrom depth tl
  | depth, LockEv.writeTs _ :: tl => sleepDepthsFrom depth tl

/-- Lock depths at which the sleep events of a trace occur; a sleep outside
the lock occurs at depth 0. -/
def sleepDepths (tr : List LockEv) : List Nat :=
  sleepDepthsFrom 0 tr

theorem dictLookup_nil {α : Type} (k : String) :
    dictLookup ([] : List (String × α)) k = none := rfl

theorem dictLookup_cons {α : Type} (k : String) (e : String × α) (l : List (String × α)) :
    dictLookup (e :: l) k = if k = e.1 then some e.2 else dictLookup l k := by
  rcases e with ⟨a, b⟩
  by_cases h : k = a
  · simp [dictLookup, List.lookup_cons, h]
  · simp [dictLookup, List.lookup_cons, h, beq_false_of_ne h]

theorem dictLookup_append {α : Type} (l l' : List (String × α)) (k : String) :
    dictLookup (l ++ l') k = (dictLookup l k).or (dictLookup l' k) := by
  induction l with
  | nil => simp [dictLookup]
  | cons e t ih => by_cases h : k = e.1 <;> simp [dictLookup_cons, h, ih]

theorem dictLookup_singleton {α : Type} (k : String) (v : α) :
    dictLookup [(k, v)] k = some v := by
  simp [dictLookup]

theorem dictLookup_isSome_iff {α : Type} (d : List (String × α)) (k : String) :
    (dictLookup d k).isSome = true ↔ k ∈ d.map Prod.fst := by
  induction d with
  | nil => simp [dictLookup]
  | cons e t ih => by_cases h : k = e.1 <;> simp [dictLookup_cons, h, ih]

theorem dictLookup_mapSet {α : Type} (d : List (String × α)) (k : String) (v : α)
    (hs : (dictLookup d k).isSome = true) :
    dictLookup (d.map (fun kv => if kv.1 = k then (k, v) else kv)) k = some v := by
  induction d with
  | nil => simp [dictLookup] at hs
  | cons e t ih =>
    by_cases h : e.1 = k
    · simp [List.map_cons, dictLookup_cons, h]
    · have hne : ¬ (k = e.1) := fun hh => h hh.symm
      rw [dictLookup_cons, if_neg hne] at hs
      simp [List.map_cons, dictLookup_cons, h, hne, ih hs]

theorem dictLookup_dictSet_self {α : Type} (d : List (String × α)) (k : String) (v : α) :
    dictLookup (dictSet d k v) k = some v := by
  unfold dictSet
  by_cases hs : (dictLookup d k).isSome = true
  · rw [if_pos hs]
    exact dictLookup_mapSet d k v hs
  · rw [if_neg hs, dictLookup_append]
    have hn : dictLookup d k = none := by
      cases h : dictLookup d k with
      | some v => rw [h] at hs; simp at hs
      | none => rfl
    simp [hn, dictLookup_singleton]

theorem ddGet_fst (d : List (String × Nat)) (k : String) :
    (ddGet d k).1 = lookup0 d k := by
  unfold ddGet lookup0
  cases h : dictLookup d k <;> simp

theorem lookup0_append_zero (d : List (String × Nat)) (k k' : String) :
    lookup0 (d ++ [(k, 0)]) k' = lookup0 d k' := by
  unfold lookup0
  rw [dictLookup_append]
  cases h : dictLookup d k' with
  | some v => simp
  | none => by_cases hk : k' = k <;> simp [dictLookup_cons, dictLookup_nil, hk]

theorem lookup0_ddGet_snd (d : List (String × Nat)) (k k' : String) :
    lookup0 (ddGet d k).2 k' = lookup0 d k' := by
  unfold ddGet
  cases h : dictLookup d k <;> simp [lookup0_append_zero]

/-- Claim C1. The information-value gate of `scrape_page` is claimed to
reject a page iff `H > 500000`, or `num_info_tokens < 50`, or
`H > 300000 ∧ num_info_tokens < 100`. In the source,
`_has_high_information_value` has no `return True`: it returns `False` in the
rejection cases and otherwise falls off its end returning `None`, which is
falsy, so the gate rejects every page — including a page with `H = 1000` and
`200` informational tokens, for which none of the three rejection conditions
holds. -/
theorem c1_gate_rejects_everything :
    (∀ html_size num_info_tokens : Nat, gate_rejects html_size num_info_tokens = true)
    ∧ gate_rejects 1000 200 = true
    ∧ ¬ (1000 > 500000 ∨ 200 < 50 ∨ (1000 > 300000 ∧ 200 < 100)) := by
  refine ⟨?_, by decide, by decide⟩
  intro H n
  dsimp only [gate_rejects, has_high_information_value]
  split <;> rfl

/-- Claim C2. The source writes `"attachment_id" "archive_year"` without a
comma inside the `_good_params` literal; Python concatenates the adjacent
string literals, so neither `attachment_id` nor `archive_year` is in the
known-good set — only the fused name is — and `_remove_query_params` drops
both parameters instead of preserving them. -/
theorem c2_attachment_id_dropped :
    good_params.contains "attachment_id" = false
    ∧ good_params.contains "archive_year" = false
    ∧ good_params.contains "attachment_idarchive_year" = true
    ∧ remove_query_params "http://www.ics.uci.edu/x?attachment_id=3&archive_year=2020"
        = .ok "http://www.ics.uci.edu/x" :=
  ⟨rfl, rfl, rfl, rfl⟩

/-- Claim C4. `is_valid` is claimed never to raise. Its `try` block catches
only `TypeError`, but `urlparse` raises `ValueError` ("Invalid IPv6 URL") on
a netloc with an unbalanced square bracket, so
`is_valid("http://[::1")` propagates the `ValueError` instead of returning
false. -/
theorem c4_valueerror_escapes :
    (is_valid scraper_init "http://[::1").1 = .error PyErr.valueError := rfl

/-- Claim C7. The four domain-rule test vectors of the spec, on a filter
state with no prior visits: the `ics.uci.edu` subdomain is accepted, the
look-alike host `ics.uci.edu.evil.com` is rejected, `today.uci.edu` is
rejected outside and accepted inside the
`/department/information_computer_sciences/` path prefix. -/
theorem c7_domain_rule :
    (is_valid scraper_init "http://www.ics.uci.edu/x").1 = .ok true
    ∧ (is_valid scraper_init "http://ics.uci.edu.evil.com/").1 = .ok false
    ∧ (is_valid scraper_init "http://today.uci.edu/foo").1 = .ok false
    ∧ (is_valid scraper_init
        "http://today.uci.edu/department/information_computer_sciences/x").1 = .ok true :=
  ⟨rfl, rfl, rfl, rfl⟩

/-- Claim C8. The SimHash similarity measure of `_is_similar` — agreeing bit
positions over the 64-bit width — is symmetric, and self-similarity is 1, so
a fingerprint compared against an identical one always meets the 0.80
near-duplicate threshold. -/
theorem c8_similarity_symm_self :
    (∀ a b : Fingerprint, similarity a b = similarity b a)
    ∧ (∀ a : Fingerprint, similarity a a = 1 ∧ THRESHOLD ≤ similarity a a) := by
  have hsym : ∀ a b : Fingerprint, same_bits a b = same_bits b a := by
    intro a b
    unfold same_bits
    congr 1
    apply Finset.filter_congr
    intro i _
    exact eq_comm
  have hself : ∀ a : Fingerprint, same_bits a a = 64 := by
    intro a
    unfold same_bits
    simp
  constructor
  · intro a b
    unfold similarity
    rw [hsym]
  · intro a
    have h := hself a
    unfold similarity THRESHOLD
    rw [h]
    norm_num

theorem is_valid_snd_cases (st : ScraperState) (u : String) :
    (is_valid st u).2 = st
    ∨ ∃ p, pyUrlparse u = .ok p
        ∧ (is_valid st u).2
            = { st with site_counts := (ddGet st.site_counts (p.netloc ++ p.path)).2 } := by
  unfold is_valid
  cases hp : pyUrlparse u with
  | error e => exact Or.inl rfl
  | ok p =>
    dsimp only
    split_ifs with h1 h2 h3 h4 <;>
      first
        | exact Or.inl rfl
        | exact Or.inr ⟨p, rfl, rfl⟩

/-- Claim C3 (counterexample). `is_valid` is claimed to leave the key set of
`site_counts` unchanged. On a fresh scraper, `is_valid` of a domain-valid URL
reaches the trap check, whose `defaultdict` read inserts the key
`netloc + path` with value 0, so the key set changes. -/
theorem c3_side_effect_counterexample :
    ((is_valid scraper_init "http://www.ics.uci.edu/x").2).site_counts.map Prod.fst
      ≠ scraper_init.site_counts.map Prod.fst := by decide

/-- Claim C3 (amended). `is_valid` changes no `site_counts` value under the
`defaultdict` default-0 reading and no other analyzer field; its only state
effect is that the trap check's `defaultdict` read may append one absent key
— the parsed URL's `netloc + path` — with value 0. -/
theorem c3_filter_state_effect :
    ∀ (st : ScraperState) (u : String),
      (∀ k, lookup0 ((is_valid st u).2).site_counts k = lookup0 st.site_counts k)
      ∧ ((is_valid st u).2).visited_urls = st.visited_urls
      ∧ ((is_valid st u).2).subdomain_counts = st.subdomain_counts
      ∧ ((is_valid st u).2).token_counts = st.token_counts
      ∧ ((is_valid st u).2).max_page_url = st.max_page_url
      ∧ ((is_valid st u).2).max_page_len = st.max_page_len
      ∧ (((is_valid st u).2).site_counts = st.site_counts
          ∨ ∃ k, dictLookup st.site_counts k = none
              ∧ ((is_valid st u).2).site_counts = st.site_counts ++ [(k, 0)]) := by
  intro st u
  rcases is_valid_snd_cases st u with h | ⟨p, hp, h⟩
  · rw [h]
    exact ⟨fun k => rfl, rfl, rfl, rfl, rfl, rfl, Or.inl rfl⟩
  · rw [h]
    refine ⟨fun k => lookup0_ddGet_snd _ _ _, rfl, rfl, rfl, rfl, rfl, ?_⟩
    unfold ddGet
    cases hd : dictLookup st.site_counts (p.netloc ++ p.path) with
    | some v => exact Or.inl rfl
    | none => exact Or.inr ⟨p.netloc ++ p.path, hd, rfl⟩

/-- Claim C5. Once `site_counts[netloc + path]` exceeds the trap threshold 5,
`is_valid` returns false for every URL parsing to that `netloc + path`,
whatever its query; in particular, after six visit accountings
(`site_counts[site] += 1`) for the site, any URL sharing it is rejected by
the filter. -/
theorem c5_trap_rejection :
    (∀ (st : ScraperState) (u : String) (p : ParsedUrl),
        pyUrlparse u = .ok p →
        5 < lookup0 st.site_counts (p.netloc ++ p.path) →
        (is_valid st u).1 = .ok false)
    ∧ (∀ (st : ScraperState) (u : String) (p : ParsedUrl)
        (d6 : List (String × Nat)),
        pyUrlparse u = .ok p →
        d6 = (fun d => visit_site d (p.netloc ++ p.path))^[6] st.site_counts →
        (is_valid { st with site_counts := d6 } u).1 = .ok false) := by
  have core : ∀ (st : ScraperState) (u : String) (p : ParsedUrl),
      pyUrlparse u = .ok p →
      5 < lookup0 st.site_counts (p.netloc ++ p.path) →
      (is_valid st u).1 = .ok false := by
    intro st u p hp htrap
    have ht : (is_trap st p).1 = true := by
      unfold is_trap
      dsimp only
      rw [ddGet_fst]
      exact decide_eq_true htrap
    unfold is_valid
    cases hc : pyUrlparse u with
    | error e => rw [hc] at hp; exact absurd hp (by simp)
    | ok q =>
      rw [hc] at hp
      injection hp with hpq
      subst hpq
      dsimp only
      split_ifs with h1 h2 h3 <;> rfl
  have hiter : ∀ (n : Nat) (d : List (String × Nat)) (k : String),
      lookup0 ((fun d => visit_site d k)^[n] d) k = lookup0 d k + n := by
    intro n
    induction n with
    | zero => intro d k; simp
    | succ m ih =>
      intro d k
      rw [Function.iterate_succ_apply, ih]
      have hv : lookup0 (visit_site d k) k = lookup0 d k + 1 := by
        unfold visit_site
        dsimp only
        unfold lookup0
        rw [dictLookup_dictSet_self]
        simp [ddGet_fst, lookup0]
      rw [hv]
      omega
  refine ⟨core, ?_⟩
  intro st u p d6 hp hd6
  apply core _ _ _ hp
  show 5 < lookup0 d6 (p.netloc ++ p.path)
  rw [hd6, hiter]
  omega

/-- Witness for claim C5: a site already visited six times, then a seventh
URL with a fresh query for the same host and path is rejected. -/
theorem c5_trap_rejection_witness :
    pyUrlparse "http://www.ics.uci.edu/p?x=7"
      = .ok ⟨"http", "www.ics.uci.edu", "/p", "x=7"⟩
    ∧ [("www.ics.uci.edu/p", 6)]
        = (fun d => visit_site d ("www.ics.uci.edu" ++ "/p"))^[6] scraper_init.site_counts
    ∧ 5 < lookup0 [("www.ics.uci.edu/p", 6)] ("www.ics.uci.edu" ++ "/p")
    ∧ (is_valid { scraper_init with site_counts := [("www.ics.uci.edu/p", 6)] }
        "http://www.ics.uci.edu/p?x=7").1 = .ok false := by
  refine ⟨rfl, by decide, by decide, ?_⟩
  exact c5_trap_rejection.2 scraper_init _ ⟨"http", "www.ics.uci.edu", "/p", "x=7"⟩
    [("www.ics.uci.edu/p", 6)] rfl (by decide)

theorem add_url_mono (st : FrontierState) (u k : String)
    (h : (dictLookup st.save k).isSome = true) :
    (dictLookup (add_url st u).save k).isSome = true := by
  unfold add_url
  dsimp only
  split_ifs with hs
  · exact h
  · cases hv : dictLookup st.save k with
    | none => rw [hv] at h; simp at h
    | some v => simp [dictLookup_append, hv]

theorem add_url_mem (st : FrontierState) (u : String) :
    (dictLookup (add_url st u).save (get_urlhash (normalize u))).isSome = true := by
  unfold add_url
  dsimp only
  split_ifs with hs
  · exact hs
  · cases hv : dictLookup st.save (get_urlhash (normalize u)) with
    | some v => rw [hv] at hs; simp at hs
    | none => simp [dictLookup_append, hv, dictLookup_singleton]

theorem add_url_noop (st : FrontierState) (u : String)
    (h : (dictLookup st.save (get_urlhash (normalize u))).isSome = true) :
    add_url st u = st := by
  unfold add_url
  dsimp only
  rw [if_pos h]

theorem add_url_inv (st : FrontierState) (u : String) (h : frontier_inv st) :
    frontier_inv (add_url st u) := by
  obtain ⟨hq, hk, hm⟩ := h
  unfold add_url
  dsimp only
  split_ifs with hs
  · exact ⟨hq, hk, hm⟩
  · refine ⟨?_, ?_, ?_⟩
    · have hnotin : normalize u ∉ st.to_be_downloaded := by
        intro hin
        exact hs (hm _ hin)
      simp [List.nodup_append, hq, hnotin]
    · have hnot : get_urlhash (normalize u) ∉ st.save.map Prod.fst := by
        intro hin
        exact hs ((dictLookup_isSome_iff _ _).mpr hin)
      simp [List.nodup_append, hk, hnot]
    · intro q hq2
      rw [List.mem_append] at hq2
      rcases hq2 with hq2 | hq2
      · have hold := hm q hq2
        cases hv : dictLookup st.save (get_urlhash q) with
        | none => rw [hv] at hold; simp at hold
        | some v => simp [dictLookup_append, hv]
      · simp only [List.mem_singleton] at hq2
        subst hq2
        cases hv : dictLookup st.save (get_urlhash (normalize u)) with
        | some v => rw [hv] at hs; simp at hs
        | none => simp [dictLookup_append, hv, dictLookup_singleton]

theorem foldl_add_url_inv (us : List String) :
    ∀ st : FrontierState, frontier_inv st → frontier_inv (us.foldl add_url st) := by
  induction us with
  | nil => intro st h; exact h
  | cons v tl ih => intro st h; exact ih _ (add_url_inv _ _ h)

theorem foldl_add_url_mono (us : List String) :
    ∀ (st : FrontierState) (k : String),
      (dictLookup st.save k).isSome = true →
      (dictLookup ((us.foldl add_url st).save) k).isSome = true := by
  induction us with
  | nil => intro st k h; exact h
  | cons v tl ih => intro st k h; exact ih _ _ (add_url_mono _ _ _ h)

theorem foldl_add_url_mem (us : List String) :
    ∀ (st : FrontierState) (u : String), u ∈ us →
      (dictLookup ((us.foldl add_url st).save) (get_urlhash (normalize u))).isSome = true := by
  induction us with
  | nil => intro st u h; simp at h
  | cons v tl ih =>
    intro st u h
    rw [List.mem_cons] at h
    rcases h with h | h
    · subst h
      exact foldl_add_url_mono tl _ _ (add_url_mem st u)
    · exact ih _ _ h

/-- Claim C6. After any sequence of pushes starting from an empty frontier,
the FIFO holds no URL twice and the persistent map holds no fingerprint
twice; every pushed URL's fingerprint is a key of the persistent map; and a
redundant push — one whose fingerprint is already a key — leaves the frontier
state entirely unchanged. The `normalize` and `get_urlhash` helpers live in
the `utils` package outside `src/` and are modelled from the spec. -/
theorem c6_frontier_dedup :
    (∀ us : List String,
      ((us.foldl add_url frontier_init).to_be_downloaded).Nodup
      ∧ (((us.foldl add_url frontier_init).save).map Prod.fst).Nodup)
    ∧ (∀ (us : List String) (u : String), u ∈ us →
        (dictLookup ((us.foldl add_url frontier_init).save)
          (get_urlhash (normalize u))).isSome = true)
    ∧ (∀ (st : FrontierState) (u : String),
        (dictLookup st.save (get_urlhash (normalize u))).isSome = true →
        add_url st u = st) := by
  have hinit : frontier_inv frontier_init := by
    refine ⟨List.nodup_nil, List.nodup_nil, ?_⟩
    intro q hq
    simp [frontier_init] at hq
  refine ⟨?_, ?_, add_url_noop⟩
  · intro us
    have h := foldl_add_url_inv us frontier_init hinit
    exact ⟨h.1, h.2.1⟩
  · intro us u hu
    exact foldl_add_url_mem us frontier_init u hu

/-- Witness for claim C6: one URL pushed once is present; pushing it a second
time is a no-op. -/
theorem c6_frontier_dedup_witness :
    ("http://www.ics.uci.edu/" ∈ ["http://www.ics.uci.edu/"]
      ∧ (dictLookup ((["http://www.ics.uci.edu/"].foldl add_url frontier_init).save)
          (get_urlhash (normalize "http://www.ics.uci.edu/"))).isSome = true)
    ∧ ((dictLookup (add_url frontier_init "http://www.ics.uci.edu/").save
          (get_urlhash (normalize "http://www.ics.uci.edu/"))).isSome = true
      ∧ add_url (add_url frontier_init "http://www.ics.uci.edu/") "http://www.ics.uci.edu/"
          = add_url frontier_init "http://www.ics.uci.edu/") := by
  refine ⟨⟨by simp, ?_⟩, ⟨by decide, ?_⟩⟩
  · exact c6_frontier_dedup.2.1 _ _ (by simp)
  · exact c6_frontier_dedup.2.2 _ _ (by decide)

theorem sleepDepths_wait_trace (st : FrontierState) (url : String) (now : ℚ) (d : String)
    (hd : get_domain url = .ok (some d)) :
    sleepDepths (wait_for_request_trace st url now)
      = if now - lookupQ st.last_request_time d < MIN_INTERVAL then [1] else [] := by
  unfold wait_for_request_trace
  rw [hd]
  dsimp only
  by_cases h : now - lookupQ st.last_request_time d < MIN_INTERVAL
  · rw [if_pos h, if_pos h]
    rfl
  · rw [if_neg h, if_neg h]
    rfl

/-- Claim C9 (counterexample). The claim says `wait_for_request` never sleeps
while holding the shared lock. On a fresh frontier the 500 ms interval has
not elapsed, and the sleep event of the call's trace occurs at lock depth 1 —
inside the `with self.lock:` block — not at depth 0. -/
theorem c9_lock_counterexample :
    ¬ (∀ n ∈ sleepDepths (wait_for_request_trace frontier_init "http://www.ics.uci.edu/x" 0),
        n = 0) := by
  intro hall
  have h := sleepDepths_wait_trace frontier_init "http://www.ics.uci.edu/x" 0
    "www.ics.uci.edu" rfl
  rw [if_pos (by norm_num [lookupQ, dictLookup_nil, frontier_init, MIN_INTERVAL])] at h
  have h1 := hall 1 (by rw [h]; simp)
  exact Nat.one_ne_zero h1

/-- Claim C9 (amended). In `wait_for_request` the timing-table read, the
conditional sleep and the timestamp update all occur inside the single
`with self.lock:` block: every sleep event of the call's trace occurs at lock
depth 1, so a worker sleeping for one host does hold the shared lock against
workers waiting for other hosts. -/
theorem c9_sleep_under_lock :
    ∀ (st : FrontierState) (url : String) (now : ℚ),
      ∀ n ∈ sleepDepths (wait_for_request_trace st url now), n = 1 := by
  intro st url now n hn
  unfold wait_for_request_trace at hn
  cases hg : get_domain url with
  | error e =>
    rw [hg] at hn
    simp [sleepDepths, sleepDepthsFrom] at hn
  | ok o =>
    rw [hg] at hn
    cases o with
    | none => simp [sleepDepths, sleepDepthsFrom] at hn
    | some d =>
      dsimp only at hn
      by_cases h : now - lookupQ st.last_request_time d < MIN_INTERVAL
      · rw [if_pos h] at hn
        simpa [sleepDepths, sleepDepthsFrom] using hn
      · rw [if_neg h] at hn
        simp [sleepDepths, sleepDepthsFrom] at hn

/-- Witness for the amended claim C9: on a fresh frontier the trace contains
a sleep event, and it occurs at lock depth 1. -/
theorem c9_sleep_under_lock_witness :
    1 ∈ sleepDepths (wait_for_request_trace frontier_init "http://www.ics.uci.edu/x" 0)
    ∧ (1 : Nat) = 1 := by
  have hmem : 1 ∈ sleepDepths
      (wait_for_request_trace frontier_init "http://www.ics.uci.edu/x" 0) := by
    rw [sleepDepths_wait_trace frontier_init "http://www.ics.uci.edu/x" 0
      "www.ics.uci.edu" rfl]
    rw [if_pos (by norm_num [lookupQ, dictLookup_nil, frontier_init, MIN_INTERVAL])]
    simp
  exact ⟨hmem, c9_sleep_under_lock frontier_init "http://www.ics.uci.edu/x" 0 1 hmem⟩

/-- Claim C10. For a URL with a hostname, `mark_url_complete` at time `t`
writes `(url, True)` into the persistent map and sets the host's
last-request timestamp to `t`; a `wait_for_request` for the same host at any
time less than 500 ms later therefore sleeps for the remainder of the full
interval measured from the completion time, waking at `t` + 500 ms. -/
theorem c10_mark_complete_timestamp :
    ∀ (st : FrontierState) (u : String) (t tN : ℚ) (d : String),
      get_domain u = .ok (some d) → t ≤ tN → tN < t + MIN_INTERVAL →
      (mark_url_complete st u t).2 = none
      ∧ dictLookup (mark_url_complete st u t).1.save (get_urlhash u) = some (u, true)
      ∧ lookupQ (mark_url_complete st u t).1.last_request_time d = t
      ∧ (wait_for_request (mark_url_complete st u t).1 u tN).1.1
          = MIN_INTERVAL - (tN - t)
      ∧ tN + (wait_for_request (mark_url_complete st u t).1 u tN).1.1
          = t + MIN_INTERVAL := by
  intro st u t tN d hd h1 h2
  have hmark : mark_url_complete st u t
      = ({ st with
            save := dictSet st.save (get_urlhash u) (u, true)
            last_request_time := dictSet st.last_request_time d t }, none) := by
    unfold mark_url_complete
    rw [hd]
  rw [hmark]
  dsimp only
  have hts : lookupQ (dictSet st.last_request_time d t) d = t := by
    unfold lookupQ
    rw [dictLookup_dictSet_self]
    rfl
  have hwait : (wait_for_request
      { st with
        save := dictSet st.save (get_urlhash u) (u, true)
        last_request_time := dictSet st.last_request_time d t } u tN).1.1
      = MIN_INTERVAL - (tN - t) := by
    unfold wait_for_request
    rw [hd]
    dsimp only
    rw [hts]
    rw [if_pos (by linarith)]
  refine ⟨rfl, dictLookup_dictSet_self _ _ _, hts, hwait, ?_⟩
  rw [hwait]
  ring

/-- Witness for claim C10: completing a URL at time 0, then a
`wait_for_request` for the same host at time 1/4 sleeps for the remaining
1/4 and wakes at 1/2 = `MIN_INTERVAL`. -/
theorem c10_mark_complete_timestamp_witness :
    (mark_url_complete frontier_init "http://www.ics.uci.edu/x" 0).2 = none
    ∧ dictLookup (mark_url_complete frontier_init "http://www.ics.uci.edu/x" 0).1.save
        (get_urlhash "http://www.ics.uci.edu/x") = some ("http://www.ics.uci.edu/x", true)
    ∧ lookupQ (mark_url_complete frontier_init
        "http://www.ics.uci.edu/x" 0).1.last_request_time "www.ics.uci.edu" = 0
    ∧ (wait_for_request (mark_url_complete frontier_init "http://www.ics.uci.edu/x" 0).1
        "http://www.ics.uci.edu/x" (1 / 4)).1.1 = MIN_INTERVAL - (1 / 4 - 0)
    ∧ (1 / 4 : ℚ) + (wait_for_request (mark_url_complete frontier_init
        "http://www.ics.uci.edu/x" 0).1 "http://www.ics.uci.edu/x" (1 / 4)).1.1
        = 0 + MIN_INTERVAL :=
  c10_mark_complete_timestamp frontier_init "http://www.ics.uci.edu/x" 0 (1 / 4)
    "www.ics.uci.edu" rfl (by norm_num) (by norm_num [MIN_INTERVAL])

end Crawler
